import Mathlib

/-!
Shallow embedding of the stop-the-world protocol of `pthread_stop_world.c`
(bdwgc).  Pointers are modelled as `Nat` (0 = NULL), machine words as `Nat`
reduced modulo `2 ^ 64`, the thread registry as a list of records, and the
counting semaphore as a `Nat`.  Signal delivery outcomes (`pthread_kill`
results) are supplied by an oracle function, and the asynchronous handlers
are sequentialised at the points where the semaphore handshake forces them
to have completed.
-/

namespace StopWorld

/-- Word width of the `AO_t` counters (64-bit build): `2 ^ 64`. -/
def UWORD : Nat := 18446744073709551616

/-- Model of `struct thread_stop_info`: `last_stop_count` is the round this thread
last acknowledged, `stack_ptr` the stack pointer captured at suspension
(0 = NULL, i.e. never captured). -/
structure StopInfo where
  last_stop_count : Nat
  stack_ptr : Nat
deriving DecidableEq, Repr

/-- The fields of a `GC_thread` registry record that this file reads or
writes: id (`pthread_t`), the `FINISHED` and `MAIN_THREAD` flag bits, the
`thread_blocked` field, `stack_end` and the `stop_info` sub-record. -/
structure GCThread where
  id : Nat
  finished : Bool
  main_thread : Bool
  thread_blocked : Bool
  stack_end : Nat
  stop_info : StopInfo
deriving DecidableEq, Repr

/-- The process-global protocol state: `GC_stop_count`, `GC_world_is_stopped`,
`GC_suspend_ack_sem` (value of the counting semaphore), the optional NetBSD
`GC_restart_ack_sem`, and the registry contents (`GC_threads`, flattened). -/
structure GCState where
  stop_count : Nat
  world_is_stopped : Bool
  ack_sem : Nat
  restart_ack_sem : Nat
  threads : List GCThread
deriving DecidableEq, Repr

/-- Round increment `AO_store(&GC_stop_count, GC_stop_count+1)`: unsigned word increment
with wraparound. -/
def bumpRound (c : Nat) : Nat := (c + 1) % UWORD

/-- Result of `pthread_kill(id, sig)` for a given target thread. -/
inductive KillResult where
  | ok
  | esrch
  | err
deriving DecidableEq, Repr

/-- The filter applied by the loop body of `GC_suspend_all`: skip the caller
(`THREAD_EQUAL(p->id, my_thread)`), `FINISHED` records, records already
acknowledged for the current round (`last_stop_count == GC_stop_count`),
and `thread_blocked` records. -/
def suspend_eligible (my cnt : Nat) (t : GCThread) : Bool :=
  !(t.id == my) && !t.finished && !(t.stop_info.last_stop_count == cnt)
    && !t.thread_blocked

/-- Loop of `GC_suspend_all`: walk the registry, send `SIG_SUSPEND` to each
eligible record, counting successful deliveries (`n_live_threads`); an
`ESRCH` result decrements the count again; any other failure is
`ABORT("pthread_kill failed")`, modelled as `none`.  Returns the count and
the ids `pthread_kill` was invoked on, in registry order. -/
def GC_suspend_all_aux (deliver : Nat → KillResult) (my cnt : Nat) :
    List GCThread → Int → List Nat → Option (Int × List Nat)
  | [], n, sent => some (n, sent.reverse)
  | t :: ts, n, sent =>
    if suspend_eligible my cnt t then
      match deliver t.id with
      | .ok => GC_suspend_all_aux deliver my cnt ts (n + 1) (t.id :: sent)
      | .esrch => GC_suspend_all_aux deliver my cnt ts (n + 1 - 1) (t.id :: sent)
      | .err => none
    else
      GC_suspend_all_aux deliver my cnt ts n sent

/-- Entry point `GC_suspend_all` (the registry walk, with `GC_stop_count` already read
as `cnt`). -/
def GC_suspend_all (deliver : Nat → KillResult) (my cnt : Nat)
    (threads : List GCThread) : Option (Int × List Nat) :=
  GC_suspend_all_aux deliver my cnt threads 0 []

/-- Model of `GC_suspend_handler_inner` up to (and including) reaching the park wait,
sequentialised: `my_stop_count` has been read from `GC_stop_count` as `cnt`;
`sp_val` is the address of the handler's `dummy` local (the captured
approximate stack pointer).  Returns `none` on
`ABORT("Bad signal in suspend_handler")`; otherwise
`(updated record, updated ack semaphore, posted?, parked?)`:
on a duplicate signal (`last_stop_count == my_stop_count`) the handler
returns at once — no `sem_post`, no `stack_ptr` write, no `sigsuspend`;
otherwise it stores `stack_ptr`, posts `GC_suspend_ack_sem`, stores
`last_stop_count = my_stop_count` and enters the park loop. -/
def GC_suspend_handler_inner (sigSuspend sig cnt sp_val : Nat)
    (t : GCThread) (ack : Nat) : Option (GCThread × Nat × Bool × Bool) :=
  if sig ≠ sigSuspend then none
  else if t.stop_info.last_stop_count = cnt then
    some (t, ack, false, false)
  else
    some ({ t with stop_info := ⟨cnt, sp_val⟩ }, ack + 1, true, true)

/-- The `errno` side effects of the body of the suspend handler: on the
duplicate path only `WARN` runs (which may clobber `errno`), on the full
path `sem_post` runs (which may clobber `errno`). -/
def suspend_inner_errno (cnt : Nat) (t : GCThread)
    (warn_errno sem_post_errno : Int) (_errno : Int) : Int :=
  if t.stop_info.last_stop_count = cnt then warn_errno else sem_post_errno

/-- Model of `GC_suspend_handler` as it treats `errno`: `old_errno = errno`, run the
inner handler (whose clobbering of `errno` is `suspend_inner_errno`), then
`errno = old_errno`. -/
def GC_suspend_handler_errno (cnt : Nat) (t : GCThread)
    (warn_errno sem_post_errno : Int) (errno0 : Int) : Int :=
  let old_errno := errno0
  let _errno1 := suspend_inner_errno cnt t warn_errno sem_post_errno errno0
  old_errno

/-- Model of `GC_restart_handler`: `ABORT` (`none`) unless `sig == SIG_THR_RESTART`;
otherwise return, the only state touched being the optional NetBSD-only
`sem_post(&GC_restart_ack_sem)`. -/
def GC_restart_handler (sigRestart sig : Nat) (netbsd : Bool)
    (st : GCState) : Option GCState :=
  if sig ≠ sigRestart then none
  else if netbsd then
    some { st with restart_ack_sem := st.restart_ack_sem + 1 }
  else some st

/-- One return from `sigsuspend(&suspend_handler_mask)`: the values of the
shared state the woken thread then reads, plus the identity of the signal
that caused the wake (which the loop condition never consults). -/
structure WakeObs where
  world_is_stopped : Bool
  stop_count : Nat
  sig : Nat
deriving DecidableEq, Repr

/-- The `do { ... } while` condition of the park loop:
`AO_load_acquire(&GC_world_is_stopped) && AO_load(&GC_stop_count) == my_stop_count`. -/
def park_stay (my_stop_count : Nat) (w : WakeObs) : Bool :=
  w.world_is_stopped && (w.stop_count == my_stop_count)

/-- The park loop `do { sigsuspend(&suspend_handler_mask); } while (...)`,
driven by the (finite, given) sequence of wakes: returns the index of the
wake at which the loop exits, or `none` if every given wake satisfies the
stay condition (the thread is still parked). -/
def park_loop (my_stop_count : Nat) : List WakeObs → Option Nat
  | [] => none
  | w :: ws =>
    if park_stay my_stop_count w then
      (park_loop my_stop_count ws).map (fun i => i + 1)
    else some 0

/-- The suspend handlers of one stop round, sequentialised: every signal
that `GC_suspend_all` delivered successfully (`deliver = ok` on an eligible
record) has its handler run — capture `stack_ptr`, post
`GC_suspend_ack_sem`, store `last_stop_count` — before `GC_stop_world`'s
`sem_wait` loop can consume that handler's post.  `sp` gives each thread's
captured stack-pointer value (the address of the handler's `dummy`
local). -/
def run_handlers (sigS cnt : Nat) (deliver : Nat → KillResult)
    (sp : Nat → Nat) (my : Nat) :
    List GCThread → Nat → List GCThread × Nat
  | [], ack => ([], ack)
  | t :: ts, ack =>
    if suspend_eligible my cnt t && (deliver t.id == .ok) then
      match GC_suspend_handler_inner sigS sigS cnt (sp t.id) t ack with
      | none =>
        let r := run_handlers sigS cnt deliver sp my ts ack
        (t :: r.1, r.2)
      | some (t', ack', _, _) =>
        let r := run_handlers sigS cnt deliver sp my ts ack'
        (t' :: r.1, r.2)
    else
      let r := run_handlers sigS cnt deliver sp my ts ack
      (t :: r.1, r.2)

/-- Net state effect of `GC_stop_world` on the default
(`GC_retry_signals == FALSE`) path:
`AO_store(&GC_stop_count, GC_stop_count+1)`;
`AO_store_release(&GC_world_is_stopped, TRUE)`; `GC_suspend_all` (abort
propagates); the handlers of the delivered signals run (`run_handlers`);
the `sem_wait` loop consumes `n_live_threads` acknowledgments. -/
def GC_stop_world_net (sigS : Nat) (deliver : Nat → KillResult)
    (sp : Nat → Nat) (my : Nat) (st : GCState) : Option GCState :=
  let cnt := bumpRound st.stop_count
  match GC_suspend_all deliver my cnt st.threads with
  | none => none
  | some (n, _sent) =>
    let r := run_handlers sigS cnt deliver sp my st.threads st.ack_sem
    some { st with stop_count := cnt, world_is_stopped := true,
                   threads := r.1, ack_sem := r.2 - n.toNat }

/-- Shared-state events of `GC_stop_world`, in program order. -/
inductive GCEvent where
  | incCount (newVal : Nat)
  | setStopped (b : Bool)
  | sendSignal (tid sig : Nat)
  | semWait
deriving DecidableEq, Repr

/-- Recogniser for round-counter increment events. -/
def isIncCount : GCEvent → Bool
  | .incCount _ => true
  | _ => false

/-- Event trace of `GC_stop_world` (default path): the round-counter store,
the world-stopped store, one `pthread_kill(p->id, SIG_SUSPEND)` per record
`GC_suspend_all` signals (in registry order), then the `n_live_threads`
`sem_wait` calls. -/
def GC_stop_world_trace (sigS : Nat) (deliver : Nat → KillResult)
    (my : Nat) (st : GCState) : Option (List GCEvent) :=
  let cnt := bumpRound st.stop_count
  match GC_suspend_all deliver my cnt st.threads with
  | none => none
  | some (n, sent) =>
    some (GCEvent.incCount cnt :: GCEvent.setStopped true ::
      (sent.map (fun tid => GCEvent.sendSignal tid sigS)
        ++ List.replicate n.toNat GCEvent.semWait))

/-- Scan-range bounds computed by the loop body of `GC_push_all_stacks`:
`lo` is `GC_approx_sp()` for the caller's own record and
`p->stop_info.stack_ptr` otherwise; `hi` is `GC_stackbottom` for a
`MAIN_THREAD` record and `p->stack_end` otherwise. -/
def scanRange (me my_sp stackbottom : Nat) (t : GCThread) : Nat × Nat :=
  ((if t.id == me then my_sp else t.stop_info.stack_ptr),
   (if t.main_thread then stackbottom else t.stack_end))

/-- The registry walk of `GC_push_all_stacks`: skip `FINISHED` records,
compute `[lo, hi)` per `scanRange`, track `found_me`,
`ABORT("GC_push_all_stacks: sp not set!")` (`none`) when `lo` is null. -/
def GC_push_all_stacks_aux (me my_sp stackbottom : Nat) :
    List GCThread → Bool → List (Nat × Nat) →
      Option (Bool × List (Nat × Nat))
  | [], found, acc => some (found, acc.reverse)
  | t :: ts, found, acc =>
    if t.finished then
      GC_push_all_stacks_aux me my_sp stackbottom ts found acc
    else
      let lo := (scanRange me my_sp stackbottom t).1
      let hi := (scanRange me my_sp stackbottom t).2
      let found' := found || (t.id == me)
      if lo = 0 then none
      else GC_push_all_stacks_aux me my_sp stackbottom ts found'
        ((lo, hi) :: acc)

/-- Model of `GC_push_all_stacks`, producing the list of `[lo, hi)` ranges handed to
`GC_push_all_stack_frames` in registry order; `none` models the two
`ABORT`s (null stack pointer; caller's record not found while
`!GC_in_thread_creation`). -/
def GC_push_all_stacks (me my_sp stackbottom : Nat)
    (in_thread_creation : Bool) (threads : List GCThread) :
    Option (List (Nat × Nat)) :=
  match GC_push_all_stacks_aux me my_sp stackbottom threads false [] with
  | none => none
  | some (found, ranges) =>
    if !found && !in_thread_creation then none else some ranges

/-- The `WAIT_UNIT` quantum of the retry loop: 3000 microseconds slept per poll. -/
def WAIT_UNIT : Nat := 3000

/-- The `RETRY_INTERVAL` bound of the retry loop: 100000 microseconds between rebroadcasts. -/
def RETRY_INTERVAL : Nat := 100000

/-- Outcome of one iteration of the `for (;;)` retry loop body. -/
inductive RetryOut where
  | done (n : Int)
  | cont (n : Int) (w : Nat)
deriving DecidableEq, Repr

/-- One iteration of the retry loop of `GC_stop_world`
(`GC_retry_signals` path).  The environment tuple `e` supplies what the
concurrent world returns at this iteration: `e.1` the `sem_getvalue`
reading at the top of the loop, `e.2.1` the `sem_getvalue` re-reading
after a rebroadcast, `e.2.2` the `newly_sent` count returned by the
rebroadcast `GC_suspend_all()`.  Body: break when `ack_count ==
n_live_threads`; when `wait_usecs > RETRY_INTERVAL` rebroadcast and, if
`newly_sent < n_live_threads - ack_count`, reconcile `n_live_threads =
ack_count + newly_sent`, then zero `wait_usecs`; finally
`usleep(WAIT_UNIT); wait_usecs += WAIT_UNIT`. -/
def retry_iter (e : Int × Int × Int) (n : Int) (w : Nat) : RetryOut :=
  if e.1 = n then .done n
  else if RETRY_INTERVAL < w then
    let newly_sent := e.2.2
    let ack2 := e.2.1
    let n2 := if newly_sent < n - ack2 then ack2 + newly_sent else n
    .cont n2 (0 + WAIT_UNIT)
  else .cont n (w + WAIT_UNIT)

/-- The retry loop run for at most `fuel` iterations from iteration index
`i`, expected count `n`, elapsed wait `w`; `some m` when the loop breaks
with `n_live_threads = m` within `fuel` iterations, `none` when it is
still looping. -/
def retry_run (env : Nat → Int × Int × Int) :
    Nat → Nat → Int → Nat → Option Int
  | 0, _, _, _ => none
  | fuel + 1, i, n, w =>
    match retry_iter (env i) n w with
    | .done m => some m
    | .cont n' w' => retry_run env fuel (i + 1) n' w'

/-- The retry loop terminates under environment `env` from expected count
`n` and elapsed wait `w`. -/
def RetryLoopTerminates (env : Nat → Int × Int × Int) (n : Int)
    (w : Nat) : Prop :=
  ∃ fuel, (retry_run env fuel 0 n w).isSome = true

/-- Environment of an execution in which acknowledgments stop arriving
(`sem_getvalue` always reads 0) while the one unacknowledged thread stays
alive, so every rebroadcast delivers to it again (`newly_sent = 1`). -/
def env_alive_silent : Nat → Int × Int × Int := fun _ => (0, 0, 1)

/-- Environment of an execution in which acknowledgments stop at `a` and
the unacknowledged threads have exited: every rebroadcast reaches zero
threads (`newly_sent = 0`, the `ESRCH` case of `pthread_kill`). -/
def env_threads_lost (a : Int) : Nat → Int × Int × Int := fun _ => (a, a, 0)

/-- Platform default of `GC_retry_signals`: `TRUE` under `GC_OSF1_THREADS`,
else `FALSE`. -/
def GC_retry_signals_default (osf1 : Bool) : Bool := osf1

/-- The environment-variable checks at the end of `GC_stop_init`, in
source order: `GETENV("GC_RETRY_SIGNALS")` sets the flag `TRUE`, then
`GETENV("GC_NO_RETRY_SIGNALS")` sets it `FALSE`. -/
def GC_stop_init_retry (dflt retry_env no_retry_env : Bool) : Bool :=
  let r0 := dflt
  let r1 := if retry_env then true else r0
  let r2 := if no_retry_env then false else r1
  r2

end StopWorld

open StopWorld

lemma GC_suspend_all_aux_ok (deliver : Nat → KillResult) (my cnt : Nat)
    (ts : List GCThread) (n : Int) (sent : List Nat)
    (h : ∀ t ∈ ts, suspend_eligible my cnt t → deliver t.id ≠ .err) :
    GC_suspend_all_aux deliver my cnt ts n sent =
      some (n + ((ts.filter (fun t => suspend_eligible my cnt t
                    && (deliver t.id == .ok))).length : Int),
            sent.reverse ++ (ts.filter (fun t => suspend_eligible my cnt t)).map
              (fun t => t.id)) := by
  induction ts generalizing n sent with
  | nil => simp [GC_suspend_all_aux]
  | cons t ts ih =>
    have ht := h t (by simp)
    have hrest : ∀ t' ∈ ts, suspend_eligible my cnt t' → deliver t'.id ≠ .err :=
      fun t' ht' => h t' (by simp [ht'])
    by_cases he : suspend_eligible my cnt t
    · cases hd : deliver t.id with
      | ok =>
        simp only [GC_suspend_all_aux, he, if_true, hd]
        rw [ih (n + 1) (t.id :: sent) hrest]
        simp [List.filter_cons, he, hd]
        ring
      | esrch =>
        simp only [GC_suspend_all_aux, he, if_true, hd]
        rw [ih (n + 1 - 1) (t.id :: sent) hrest]
        simp [List.filter_cons, he, hd]
      | err => exact absurd hd (ht he)
    · simp only [GC_suspend_all_aux, he, if_false,
        Bool.false_eq_true, if_neg (fun hc => he hc)]
      rw [ih n sent hrest]
      simp [List.filter_cons, he]

lemma GC_suspend_all_ok (deliver : Nat → KillResult) (my cnt : Nat)
    (threads : List GCThread)
    (h : ∀ t ∈ threads, suspend_eligible my cnt t → deliver t.id ≠ .err) :
    GC_suspend_all deliver my cnt threads =
      some (((threads.filter (fun t => suspend_eligible my cnt t
                && (deliver t.id == .ok))).length : Int),
            (threads.filter (fun t => suspend_eligible my cnt t)).map
              (fun t => t.id)) := by
  have := GC_suspend_all_aux_ok deliver my cnt threads 0 [] h
  simpa [GC_suspend_all] using this

lemma GC_suspend_all_aux_err (deliver : Nat → KillResult) (my cnt : Nat) :
    ∀ (ts : List GCThread) (n : Int) (sent : List Nat),
      (∃ t ∈ ts, suspend_eligible my cnt t ∧ deliver t.id = .err) →
      GC_suspend_all_aux deliver my cnt ts n sent = none := by
  intro ts
  induction ts with
  | nil => intro n sent h; simp at h
  | cons t ts ih =>
    intro n sent h
    by_cases he : suspend_eligible my cnt t
    · cases hd : deliver t.id with
      | ok =>
        simp only [GC_suspend_all_aux, he, if_true, hd]
        apply ih
        rcases h with ⟨t', ht', he', hd'⟩
        rcases List.mem_cons.mp ht' with rfl | hmem
        · rw [hd] at hd'; exact absurd hd' (by simp)
        · exact ⟨t', hmem, he', hd'⟩
      | esrch =>
        simp only [GC_suspend_all_aux, he, if_true, hd]
        apply ih
        rcases h with ⟨t', ht', he', hd'⟩
        rcases List.mem_cons.mp ht' with rfl | hmem
        · rw [hd] at hd'; exact absurd hd' (by simp)
        · exact ⟨t', hmem, he', hd'⟩
      | err => simp [GC_suspend_all_aux, he, hd]
    · simp only [GC_suspend_all_aux, if_neg (fun hc => he hc)]
      apply ih
      rcases h with ⟨t', ht', he', hd'⟩
      rcases List.mem_cons.mp ht' with rfl | hmem
      · exact absurd he' he
      · exact ⟨t', hmem, he', hd'⟩

/-- C5: `GC_suspend_all` invokes `pthread_kill` on exactly the registry
records that are not the caller, not `FINISHED`, not already acknowledged
for the current round (`last_stop_count == GC_stop_count`), and not
`thread_blocked`; when no delivery fails fatally its return value counts
the successful deliveries (an `ESRCH` failure decrements the count instead
of erroring); any other delivery failure aborts the process (`none`). -/
theorem C5_suspend_all_exact (deliver : Nat → KillResult) (my cnt : Nat)
    (threads : List GCThread)
    (hnoerr : ∀ t ∈ threads, suspend_eligible my cnt t → deliver t.id ≠ .err) :
    GC_suspend_all deliver my cnt threads =
      some (((threads.filter (fun t => suspend_eligible my cnt t
                && (deliver t.id == .ok))).length : Int),
            (threads.filter (fun t => suspend_eligible my cnt t)).map
              (fun t => t.id)) ∧
    (∀ (deliver' : Nat → KillResult),
      (∃ t ∈ threads, suspend_eligible my cnt t ∧ deliver' t.id = .err) →
      GC_suspend_all deliver' my cnt threads = none) := by
  refine ⟨GC_suspend_all_ok deliver my cnt threads hnoerr, ?_⟩
  intro deliver' hex
  exact GC_suspend_all_aux_err deliver' my cnt threads 0 [] hex

/-- Witness for C5 at a concrete registry: two eligible threads, one of
which has exited (`ESRCH`), one ineligible blocked thread. -/
theorem C5_suspend_all_exact_witness :
    GC_suspend_all
        (fun id => if id = 2 then KillResult.esrch else KillResult.ok) 1 7
        [⟨1, false, true, false, 90, ⟨3, 0⟩⟩,
         ⟨2, false, false, false, 91, ⟨3, 0⟩⟩,
         ⟨3, false, false, false, 92, ⟨3, 0⟩⟩,
         ⟨4, false, false, true, 93, ⟨3, 0⟩⟩] =
      some (1, [2, 3]) ∧
    GC_suspend_all (fun _ => KillResult.err) 1 7
        [⟨2, false, false, false, 91, ⟨3, 0⟩⟩] = none := by
  have h := C5_suspend_all_exact
      (fun id => if id = 2 then KillResult.esrch else KillResult.ok) 1 7
      [⟨1, false, true, false, 90, ⟨3, 0⟩⟩,
       ⟨2, false, false, false, 91, ⟨3, 0⟩⟩,
       ⟨3, false, false, false, 92, ⟨3, 0⟩⟩,
       ⟨4, false, false, true, 93, ⟨3, 0⟩⟩]
      (by decide)
  refine ⟨?_, ?_⟩
  · rw [h.1]; decide
  · exact h.2 (fun _ => KillResult.err)
      ⟨⟨2, false, false, false, 91, ⟨3, 0⟩⟩, by decide, by decide, rfl⟩

/-- C2: the suspend handler is idempotent per round: when the record's
`last_stop_count` already equals the round read from `GC_stop_count`, the
handler returns without posting `GC_suspend_ack_sem`, without modifying
`stop_info` (in particular `stack_ptr`), and without entering the park
wait — for every such duplicate delivery. -/
theorem C2_duplicate_suspend_noop (sigS cnt sp_val : Nat) (t : GCThread)
    (ack : Nat) (hdup : t.stop_info.last_stop_count = cnt) :
    GC_suspend_handler_inner sigS sigS cnt sp_val t ack =
      some (t, ack, false, false) := by
  simp [GC_suspend_handler_inner, hdup]

/-- Witness for C2: a record already acknowledged for round 7 is returned
unchanged, with no semaphore post and no park. -/
theorem C2_duplicate_suspend_noop_witness :
    (GCThread.mk 2 false false false 91 ⟨7, 55⟩).stop_info.last_stop_count
        = 7 ∧
    GC_suspend_handler_inner 5 5 7 99
        (GCThread.mk 2 false false false 91 ⟨7, 55⟩) 3 =
      some (GCThread.mk 2 false false false 91 ⟨7, 55⟩, 3, false, false) :=
  ⟨rfl, C2_duplicate_suspend_noop 5 7 99
    (GCThread.mk 2 false false false 91 ⟨7, 55⟩) 3 rfl⟩

/-- C9: `GC_suspend_handler` restores the interrupted code's `errno`: the
value it returns with equals the value on entry, whatever the inner body
(duplicate path: `WARN`; full path: `sem_post`) set `errno` to.  Since the
equation holds for every record `t`, it covers both the duplicate-signal
path and the full suspend-and-park path. -/
theorem C9_errno_restored (cnt : Nat) (t : GCThread)
    (warn_errno sem_post_errno errno0 : Int) :
    GC_suspend_handler_errno cnt t warn_errno sem_post_errno errno0
      = errno0 := rfl

/-- C7: the suspend handler aborts (`none`) when invoked with a signal
other than `SIG_SUSPEND`; the restart handler aborts when invoked with a
signal other than `SIG_THR_RESTART`, and when it does run it leaves the
thread records, the round counter, the world-stopped flag and the suspend
acknowledgment semaphore unchanged (only the optional NetBSD restart
acknowledgment semaphore may be posted). -/
theorem C7_wrong_signal_aborts (sigS sigR sig cnt sp_val : Nat)
    (t : GCThread) (ack : Nat) (netbsd : Bool) (st : GCState) :
    (sig ≠ sigS → GC_suspend_handler_inner sigS sig cnt sp_val t ack = none)
    ∧ (sig ≠ sigR → GC_restart_handler sigR sig netbsd st = none)
    ∧ (∀ st', GC_restart_handler sigR sig netbsd st = some st' →
        st'.threads = st.threads ∧ st'.stop_count = st.stop_count ∧
        st'.world_is_stopped = st.world_is_stopped ∧
        st'.ack_sem = st.ack_sem) := by
  refine ⟨?_, ?_, ?_⟩
  · intro h; simp [GC_suspend_handler_inner, h]
  · intro h; simp [GC_restart_handler, h]
  · intro st' h
    by_cases hs : sig ≠ sigR
    · simp [GC_restart_handler, hs] at h
    · cases netbsd <;>
        · simp [GC_restart_handler, hs] at h
          subst h
          simp

/-- Witness for C7: wrong signal numbers abort both handlers; a correct
restart signal leaves all protocol state but the NetBSD semaphore alone. -/
theorem C7_wrong_signal_aborts_witness :
    GC_suspend_handler_inner 3 4 7 99
        (GCThread.mk 2 false false false 91 ⟨7, 55⟩) 0 = none ∧
    GC_restart_handler 4 3 false (GCState.mk 5 true 0 0 []) = none ∧
    ((GCState.mk 5 true 0 1 [] : GCState).threads
          = (GCState.mk 5 true 0 0 [] : GCState).threads ∧
      (GCState.mk 5 true 0 1 [] : GCState).stop_count
          = (GCState.mk 5 true 0 0 [] : GCState).stop_count ∧
      (GCState.mk 5 true 0 1 [] : GCState).world_is_stopped
          = (GCState.mk 5 true 0 0 [] : GCState).world_is_stopped ∧
      (GCState.mk 5 true 0 1 [] : GCState).ack_sem
          = (GCState.mk 5 true 0 0 [] : GCState).ack_sem) :=
  ⟨(C7_wrong_signal_aborts 3 4 4 7 99
      (GCThread.mk 2 false false false 91 ⟨7, 55⟩) 0 false
      (GCState.mk 5 true 0 0 [])).1 (by decide),
   (C7_wrong_signal_aborts 3 4 3 7 99
      (GCThread.mk 2 false false false 91 ⟨7, 55⟩) 0 false
      (GCState.mk 5 true 0 0 [])).2.1 (by decide),
   (C7_wrong_signal_aborts 3 4 4 7 99
      (GCThread.mk 2 false false false 91 ⟨7, 55⟩) 0 true
      (GCState.mk 5 true 0 0 [])).2.2 (GCState.mk 5 true 0 1 []) rfl⟩

lemma park_loop_exit (my : Nat) :
    ∀ (ws : List WakeObs) (i : Nat), park_loop my ws = some i →
      (∃ w, ws[i]? = some w ∧ park_stay my w = false) ∧
      ∀ j, j < i → ∀ w, ws[j]? = some w → park_stay my w = true := by
  intro ws
  induction ws with
  | nil => intro i h; simp [park_loop] at h
  | cons w ws ih =>
    intro i h
    by_cases hs : park_stay my w
    · simp only [park_loop, hs, if_true] at h
      rcases Option.map_eq_some'.mp h with ⟨i', hi', rfl⟩
      rcases ih i' hi' with ⟨⟨w', hw', hstay⟩, hall⟩
      refine ⟨⟨w', by simpa using hw', hstay⟩, ?_⟩
      intro j hj w'' hw''
      cases j with
      | zero => simp at hw''; subst hw''; exact hs
      | succ j' =>
        exact hall j' (Nat.lt_of_succ_lt_succ hj) w'' (by simpa using hw'')
    · simp only [park_loop, hs, Bool.false_eq_true, if_false,
        Option.some_inj] at h
      subst h
      exact ⟨⟨w, by simp, by simpa using hs⟩, fun j hj => absurd hj (by omega)⟩

lemma park_loop_still_parked (my : Nat) :
    ∀ ws : List WakeObs, park_loop my ws = none →
      ∀ w ∈ ws, park_stay my w = true := by
  intro ws
  induction ws with
  | nil => intro _ w hw; simp at hw
  | cons w ws ih =>
    intro h w' hw'
    by_cases hs : park_stay my w
    · simp only [park_loop, hs, if_true, Option.map_eq_none'] at h
      rcases List.mem_cons.mp hw' with rfl | hmem
      · exact hs
      · exact ih h w' hmem
    · simp [park_loop, hs] at h

lemma park_loop_sig_irrelevant (my : Nat) (f : WakeObs → Nat) :
    ∀ ws : List WakeObs,
      park_loop my (ws.map (fun w => { w with sig := f w })) =
        park_loop my ws := by
  intro ws
  induction ws with
  | nil => rfl
  | cons w ws ih =>
    have hstay : park_stay my { w with sig := f w } = park_stay my w := rfl
    by_cases hs : park_stay my w
    · simp [park_loop, hstay, hs, ih]
    · simp [park_loop, hstay, hs]

/-- C4: the park loop is governed only by the shared state: it exits at the
first wake at which the world-stopped flag reads false or the round counter
no longer equals the parked round (`park_stay` false), re-blocks at every
earlier wake, stays parked when every wake satisfies the stay condition,
and the identity of the waking signal plays no role in the decision. -/
theorem C4_park_loop_state_authoritative (my : Nat) (ws : List WakeObs)
    (i : Nat) :
    (park_loop my ws = some i →
      (∃ w, ws[i]? = some w ∧ park_stay my w = false) ∧
      ∀ j, j < i → ∀ w, ws[j]? = some w → park_stay my w = true) ∧
    (park_loop my ws = none → ∀ w ∈ ws, park_stay my w = true) ∧
    (∀ f : WakeObs → Nat,
      park_loop my (ws.map (fun w => { w with sig := f w })) =
        park_loop my ws) :=
  ⟨park_loop_exit my ws i,
   fun h => park_loop_still_parked my ws h,
   fun f => park_loop_sig_irrelevant my f ws⟩

/-- Witness for C4: a thread parked for round 7 re-blocks on a spurious
wake with the world still stopped and exits at the wake that observes the
flag cleared. -/
theorem C4_park_loop_state_authoritative_witness :
    (∃ w, ([WakeObs.mk true 7 9, WakeObs.mk true 7 1, WakeObs.mk false 7 2,
            WakeObs.mk true 7 3] : List WakeObs)[2]? = some w ∧
        park_stay 7 w = false) ∧
    ∀ j, j < 2 → ∀ w,
      ([WakeObs.mk true 7 9, WakeObs.mk true 7 1, WakeObs.mk false 7 2,
        WakeObs.mk true 7 3] : List WakeObs)[j]? = some w →
      park_stay 7 w = true :=
  (C4_park_loop_state_authoritative 7
      [WakeObs.mk true 7 9, WakeObs.mk true 7 1, WakeObs.mk false 7 2,
       WakeObs.mk true 7 3] 2).1 (by decide)

lemma run_handlers_fst (sigS cnt : Nat) (deliver : Nat → KillResult)
    (sp : Nat → Nat) (my : Nat) :
    ∀ (ts : List GCThread) (ack : Nat),
      (∀ t ∈ ts, t.stop_info.last_stop_count ≠ cnt) →
      (run_handlers sigS cnt deliver sp my ts ack).1 =
        ts.map (fun t =>
          if suspend_eligible my cnt t && (deliver t.id == .ok) then
            { t with stop_info := ⟨cnt, sp t.id⟩ } else t) := by
  intro ts
  induction ts with
  | nil => intro ack _; rfl
  | cons t ts ih =>
    intro ack h
    have ht : t.stop_info.last_stop_count ≠ cnt := h t (by simp)
    have hrest : ∀ t' ∈ ts, t'.stop_info.last_stop_count ≠ cnt :=
      fun t' ht' => h t' (List.mem_cons_of_mem t ht')
    have hinner : GC_suspend_handler_inner sigS sigS cnt (sp t.id) t ack =
        some ({ t with stop_info := ⟨cnt, sp t.id⟩ }, ack + 1, true, true) := by
      simp [GC_suspend_handler_inner, ht]
    by_cases hc : suspend_eligible my cnt t && (deliver t.id == .ok)
    · simp only [run_handlers, hc, if_true, hinner, List.map_cons]
      rw [ih (ack + 1) hrest]
    · simp only [run_handlers, hc, Bool.false_eq_true, if_false,
        List.map_cons]
      rw [ih ack hrest]

/-- C1: after `GC_stop_world` returns (default path, all eligible threads
alive so every delivery succeeds, captured stack addresses non-null, and no
record pre-acknowledged for the round about to begin), every registry
record that is not the caller, not `FINISHED` and not `thread_blocked` has
`last_stop_count` equal to the round established at the start of the call
(`bumpRound` of the old counter) and a non-null `stack_ptr`, and
`GC_world_is_stopped` is `TRUE`. -/
theorem C1_stop_world_postcondition (sigS : Nat) (deliver : Nat → KillResult)
    (sp : Nat → Nat) (my : Nat) (st : GCState)
    (hfresh : ∀ t ∈ st.threads,
      t.stop_info.last_stop_count ≠ bumpRound st.stop_count)
    (hlive : ∀ t ∈ st.threads,
      suspend_eligible my (bumpRound st.stop_count) t = true →
      deliver t.id = .ok)
    (hsp : ∀ id, sp id ≠ 0) :
    ∃ st', GC_stop_world_net sigS deliver sp my st = some st' ∧
      st'.world_is_stopped = true ∧
      ∀ t ∈ st'.threads, t.id ≠ my → t.finished = false →
        t.thread_blocked = false →
        t.stop_info.last_stop_count = bumpRound st.stop_count ∧
        t.stop_info.stack_ptr ≠ 0 := by
  have hnoerr : ∀ t ∈ st.threads,
      suspend_eligible my (bumpRound st.stop_count) t →
      deliver t.id ≠ .err := by
    intro t ht he
    rw [hlive t ht he]
    simp
  have hsa := GC_suspend_all_ok deliver my (bumpRound st.stop_count)
    st.threads hnoerr
  have hnet : GC_stop_world_net sigS deliver sp my st =
      some { st with
        stop_count := bumpRound st.stop_count,
        world_is_stopped := true,
        threads := (run_handlers sigS (bumpRound st.stop_count) deliver sp
          my st.threads st.ack_sem).1,
        ack_sem := (run_handlers sigS (bumpRound st.stop_count) deliver sp
          my st.threads st.ack_sem).2 -
          (((st.threads.filter (fun t =>
              suspend_eligible my (bumpRound st.stop_count) t
                && (deliver t.id == .ok))).length : Int)).toNat } := by
    simp only [GC_stop_world_net, hsa]
  refine ⟨_, hnet, rfl, ?_⟩
  intro t ht hid hfin hblk
  rw [show ({ st with
        stop_count := bumpRound st.stop_count,
        world_is_stopped := true,
        threads := (run_handlers sigS (bumpRound st.stop_count) deliver sp
          my st.threads st.ack_sem).1,
        ack_sem := (run_handlers sigS (bumpRound st.stop_count) deliver sp
          my st.threads st.ack_sem).2 -
          (((st.threads.filter (fun t =>
              suspend_eligible my (bumpRound st.stop_count) t
                && (deliver t.id == .ok))).length : Int)).toNat }
      : GCState).threads =
      (run_handlers sigS (bumpRound st.stop_count) deliver sp my st.threads
        st.ack_sem).1 from rfl] at ht
  rw [run_handlers_fst sigS (bumpRound st.stop_count) deliver sp my
    st.threads st.ack_sem hfresh] at ht
  rcases List.mem_map.mp ht with ⟨u, hu, hfu⟩
  by_cases hc : suspend_eligible my (bumpRound st.stop_count) u
      && (deliver u.id == .ok)
  · rw [if_pos hc] at hfu
    subst hfu
    exact ⟨rfl, hsp u.id⟩
  · rw [if_neg hc] at hfu
    subst hfu
    have helig : suspend_eligible my (bumpRound st.stop_count) u = true := by
      simp only [suspend_eligible, Bool.and_eq_true, Bool.not_eq_true',
        beq_eq_false_iff_ne]
      exact ⟨⟨⟨hid, hfin⟩, hfresh u hu⟩, hblk⟩
    rw [helig, hlive u hu helig] at hc
    simp at hc

/-- Witness for C1: a three-record registry (caller, one runnable thread,
one `thread_blocked` thread) at round 5; the runnable thread ends at round
6 with stack pointer 77 and the world is flagged stopped. -/
theorem C1_stop_world_postcondition_witness :
    ∃ st', GC_stop_world_net 10 (fun _ => KillResult.ok) (fun _ => 77) 1
        (GCState.mk 5 false 0 0
          [GCThread.mk 1 false true false 0 ⟨5, 0⟩,
           GCThread.mk 2 false false false 500 ⟨5, 0⟩,
           GCThread.mk 3 false false true 600 ⟨4, 123⟩]) = some st' ∧
      st'.world_is_stopped = true ∧
      ∀ t ∈ st'.threads, t.id ≠ 1 → t.finished = false →
        t.thread_blocked = false →
        t.stop_info.last_stop_count = bumpRound 5 ∧
        t.stop_info.stack_ptr ≠ 0 :=
  C1_stop_world_postcondition 10 (fun _ => KillResult.ok) (fun _ => 77) 1
    (GCState.mk 5 false 0 0
      [GCThread.mk 1 false true false 0 ⟨5, 0⟩,
       GCThread.mk 2 false false false 500 ⟨5, 0⟩,
       GCThread.mk 3 false false true 600 ⟨4, 123⟩])
    (by decide) (by intro t _ _; rfl)
    (by intro id; show (77 : Nat) ≠ 0; decide)

lemma bumpRound_iterate (c0 : Nat) (hc0 : c0 < UWORD) :
    ∀ k, bumpRound^[k] c0 = (c0 + k) % UWORD := by
  intro k
  induction k with
  | zero => simp [Nat.mod_eq_of_lt hc0]
  | succ k ih =>
    rw [Function.iterate_succ_apply', ih]
    simp only [bumpRound, UWORD]
    omega

/-- C8: the round counter is incremented exactly once per `GC_stop_world`
call — the increment is the first shared-state event of the trace, before
the world-stopped store and before every suspend signal — and the stored
value is `bumpRound` of the old counter; iterating `bumpRound` across
repeated stop cycles yields strictly increasing round values, and no round
value recurs within `UWORD` cycles (wraparound at the word width being the
only exception). -/
theorem C8_round_counter (sigS : Nat) (deliver : Nat → KillResult)
    (my : Nat) (st : GCState) (tr : List GCEvent) (c0 i j : Nat)
    (htr : GC_stop_world_trace sigS deliver my st = some tr)
    (hc0 : c0 < UWORD) :
    tr.head? = some (GCEvent.incCount (bumpRound st.stop_count)) ∧
    (tr.filter isIncCount).length = 1 ∧
    (i < j → c0 + j < UWORD → bumpRound^[i] c0 < bumpRound^[j] c0) ∧
    (i < j → j < i + UWORD → bumpRound^[i] c0 ≠ bumpRound^[j] c0) := by
  have htrace : tr.head? = some (GCEvent.incCount (bumpRound st.stop_count))
      ∧ (tr.filter isIncCount).length = 1 := by
    cases hsa : GC_suspend_all deliver my (bumpRound st.stop_count)
        st.threads with
    | none => simp [GC_stop_world_trace, hsa] at htr
    | some p =>
      rcases p with ⟨n, sent⟩
      simp only [GC_stop_world_trace, hsa, Option.some_inj] at htr
      subst htr
      have hrest : ((sent.map (fun tid => GCEvent.sendSignal tid sigS)
          ++ List.replicate n.toNat GCEvent.semWait).filter isIncCount)
          = [] := by
        rw [List.filter_eq_nil_iff]
        intro a ha
        rcases List.mem_append.mp ha with h | h
        · rcases List.mem_map.mp h with ⟨tid, _, rfl⟩
          simp [isIncCount]
        · rw [List.eq_of_mem_replicate h]
          simp [isIncCount]
      constructor
      · rfl
      · simp [List.filter_cons, isIncCount, hrest]
  refine ⟨htrace.1, htrace.2, ?_, ?_⟩
  · intro hij hnw
    rw [bumpRound_iterate c0 hc0 i, bumpRound_iterate c0 hc0 j]
    simp only [UWORD] at hnw ⊢
    omega
  · intro hij hrange
    rw [bumpRound_iterate c0 hc0 i, bumpRound_iterate c0 hc0 j]
    simp only [UWORD] at hc0 hrange ⊢
    omega

/-- Witness for C8: one stop cycle from round 5 over an empty registry;
round values of the first two cycles from 0 are `1 < 2` and distinct. -/
theorem C8_round_counter_witness :
    ([GCEvent.incCount 6, GCEvent.setStopped true] : List GCEvent).head?
        = some (GCEvent.incCount (bumpRound 5)) ∧
    (([GCEvent.incCount 6, GCEvent.setStopped true]
        : List GCEvent).filter isIncCount).length = 1 ∧
    (0 < 1 → 0 + 1 < UWORD → bumpRound^[0] 0 < bumpRound^[1] 0) ∧
    (0 < 1 → 1 < 0 + UWORD → bumpRound^[0] 0 ≠ bumpRound^[1] 0) :=
  C8_round_counter 10 (fun _ => KillResult.ok) 1 (GCState.mk 5 false 0 0 [])
    [GCEvent.incCount 6, GCEvent.setStopped true] 0 0 1 (by decide)
    (by decide)

lemma push_stacks_aux_ok (me my_sp sb : Nat) :
    ∀ (ts : List GCThread) (found : Bool) (acc : List (Nat × Nat)),
      (∀ t ∈ ts, t.finished = false → (scanRange me my_sp sb t).1 ≠ 0) →
      GC_push_all_stacks_aux me my_sp sb ts found acc =
        some (found || ts.any (fun t => !t.finished && (t.id == me)),
              acc.reverse ++ (ts.filter (fun t => !t.finished)).map
                (scanRange me my_sp sb)) := by
  intro ts
  induction ts with
  | nil => intro found acc _; simp [GC_push_all_stacks_aux]
  | cons t ts ih =>
    intro found acc h
    have hrest : ∀ t' ∈ ts, t'.finished = false →
        (scanRange me my_sp sb t').1 ≠ 0 :=
      fun t' ht' => h t' (List.mem_cons_of_mem t ht')
    cases hfin : t.finished with
    | true =>
      simp only [GC_push_all_stacks_aux, hfin, if_true]
      rw [ih found acc hrest]
      simp [List.filter_cons, List.any_cons, hfin]
    | false =>
      have hlo : (scanRange me my_sp sb t).1 ≠ 0 := h t (by simp) hfin
      simp only [GC_push_all_stacks_aux, hfin, Bool.false_eq_true, if_false,
        if_neg hlo]
      rw [ih (found || (t.id == me)) (((scanRange me my_sp sb t).1,
        (scanRange me my_sp sb t).2) :: acc) hrest]
      simp [List.filter_cons, List.any_cons, hfin, Bool.or_assoc]

lemma push_stacks_aux_null (me my_sp sb : Nat) :
    ∀ (ts : List GCThread) (found : Bool) (acc : List (Nat × Nat)),
      (∃ t ∈ ts, t.finished = false ∧ (scanRange me my_sp sb t).1 = 0) →
      GC_push_all_stacks_aux me my_sp sb ts found acc = none := by
  intro ts
  induction ts with
  | nil => intro _ _ h; simp at h
  | cons t ts ih =>
    intro found acc h
    cases hfin : t.finished with
    | true =>
      simp only [GC_push_all_stacks_aux, hfin, if_true]
      apply ih
      rcases h with ⟨t', ht', hfin', hlo'⟩
      rcases List.mem_cons.mp ht' with rfl | hmem
      · rw [hfin] at hfin'; exact absurd hfin' (by simp)
      · exact ⟨t', hmem, hfin', hlo'⟩
    | false =>
      by_cases hlo : (scanRange me my_sp sb t).1 = 0
      · simp [GC_push_all_stacks_aux, hfin, hlo]
      · simp only [GC_push_all_stacks_aux, hfin, Bool.false_eq_true,
          if_false, if_neg hlo]
        apply ih
        rcases h with ⟨t', ht', hfin', hlo'⟩
        rcases List.mem_cons.mp ht' with rfl | hmem
        · exact absurd hlo' hlo
        · exact ⟨t', hmem, hfin', hlo'⟩

/-- C6: for every non-`FINISHED` record, `GC_push_all_stacks` scans the
range whose lower bound is the record's captured `stack_ptr` (the caller's
own record instead gets a pointer captured in place, `GC_approx_sp()`) and
whose upper bound is `GC_stackbottom` for a `MAIN_THREAD` record and the
record's `stack_end` otherwise; a null lower bound aborts the process. -/
theorem C6_push_all_stacks_ranges (me my_sp sb : Nat) (ic : Bool)
    (threads : List GCThread)
    (hlo : ∀ t ∈ threads, t.finished = false →
      (scanRange me my_sp sb t).1 ≠ 0)
    (hfound : (∃ t ∈ threads, t.finished = false ∧ t.id = me) ∨ ic = true) :
    GC_push_all_stacks me my_sp sb ic threads =
      some ((threads.filter (fun t => !t.finished)).map
        (scanRange me my_sp sb)) ∧
    ∀ ts' : List GCThread,
      (∃ t ∈ ts', t.finished = false ∧ (scanRange me my_sp sb t).1 = 0) →
      GC_push_all_stacks me my_sp sb ic ts' = none := by
  constructor
  · have haux := push_stacks_aux_ok me my_sp sb threads false [] hlo
    simp only [GC_push_all_stacks, haux, List.reverse_nil, List.nil_append,
      Bool.false_or]
    rcases hfound with ⟨t, ht, hfin, hid⟩ | hic
    · have hany : threads.any (fun t => !t.finished && (t.id == me))
          = true :=
        List.any_eq_true.mpr ⟨t, ht, by simp [hfin, hid]⟩
      simp [hany]
    · simp [hic]
  · intro ts' hex
    have haux := push_stacks_aux_null me my_sp sb ts' false [] hex
    simp [GC_push_all_stacks, haux]

/-- Witness for C6: caller (main thread, upper bound `GC_stackbottom`),
one suspended spawned thread (upper bound its `stack_end`), one `FINISHED`
record skipped; a registry holding a null captured pointer aborts. -/
theorem C6_push_all_stacks_ranges_witness :
    GC_push_all_stacks 1 77 900 false
        [GCThread.mk 1 false true false 0 ⟨6, 0⟩,
         GCThread.mk 2 false false false 500 ⟨6, 400⟩,
         GCThread.mk 3 true false false 700 ⟨2, 0⟩] =
      some [(77, 900), (400, 500)] ∧
    GC_push_all_stacks 1 77 900 false
        [GCThread.mk 4 false false false 300 ⟨6, 0⟩] = none := by
  have h := C6_push_all_stacks_ranges 1 77 900 false
    [GCThread.mk 1 false true false 0 ⟨6, 0⟩,
     GCThread.mk 2 false false false 500 ⟨6, 400⟩,
     GCThread.mk 3 true false false 700 ⟨2, 0⟩]
    (by decide)
    (Or.inl ⟨GCThread.mk 1 false true false 0 ⟨6, 0⟩, by decide, rfl, rfl⟩)
  refine ⟨?_, ?_⟩
  · rw [h.1]; rfl
  · exact h.2 [GCThread.mk 4 false false false 300 ⟨6, 0⟩]
      ⟨GCThread.mk 4 false false false 300 ⟨6, 0⟩, by decide, rfl, rfl⟩

lemma retry_alive_spins :
    ∀ (fuel i w : Nat), retry_run env_alive_silent fuel i 1 w = none := by
  intro fuel
  induction fuel with
  | zero => intro i w; rfl
  | succ fuel ih =>
    intro i w
    have hiter : retry_iter (env_alive_silent i) 1 w =
        .cont 1 (if RETRY_INTERVAL < w then 0 + WAIT_UNIT
                 else w + WAIT_UNIT) := by
      by_cases hw : RETRY_INTERVAL < w <;>
        simp [retry_iter, env_alive_silent, hw]
    rw [retry_run, hiter]
    exact ih (i + 1) _

/-- Counterexample to C3: an execution in which acknowledgments stop
arriving (the semaphore reading stays 0) while the single unacknowledged
thread remains alive, so every rebroadcast reaches it again
(`newly_sent = 1`): the reconciliation guard
`newly_sent < n_live_threads - ack_count` never fires and the
wait-and-rebroadcast cycle repeats forever — the loop never gives up. -/
theorem C3_retry_loop_counterexample :
    ¬ RetryLoopTerminates env_alive_silent 1 0 := by
  rintro ⟨fuel, hf⟩
  rw [retry_alive_spins fuel 0 0] at hf
  simp at hf

lemma retry_done_now (env : Nat → Int × Int × Int) (a : Int)
    (fuel i w : Nat) (h : (env i).1 = a) :
    retry_run env (fuel + 1) i a w = some a := by
  rw [retry_run]
  simp [retry_iter, h]

lemma retry_lost_reconciles (a n : Int) (hne : a ≠ n) (hlt : 0 < n - a) :
    ∀ (k i w : Nat), RETRY_INTERVAL < w + WAIT_UNIT * k →
      retry_run (env_threads_lost a) (k + 2) i n w = some a := by
  intro k
  induction k with
  | zero =>
    intro i w hw
    simp only [Nat.mul_zero, Nat.add_zero] at hw
    have hiter : retry_iter (env_threads_lost a i) n w =
        .cont a (0 + WAIT_UNIT) := by
      simp [retry_iter, env_threads_lost, hne, hw, hlt]
    rw [retry_run, hiter]
    exact retry_done_now (env_threads_lost a) a 0 (i + 1) (0 + WAIT_UNIT) rfl
  | succ k ih =>
    intro i w hw
    by_cases hw0 : RETRY_INTERVAL < w
    · have hiter : retry_iter (env_threads_lost a i) n w =
          .cont a (0 + WAIT_UNIT) := by
        simp [retry_iter, env_threads_lost, hne, hw0, hlt]
      rw [retry_run, hiter]
      exact retry_done_now (env_threads_lost a) a (k + 1) (i + 1)
        (0 + WAIT_UNIT) rfl
    · have hiter : retry_iter (env_threads_lost a i) n w =
          .cont n (w + WAIT_UNIT) := by
        simp [retry_iter, env_threads_lost, hne, hw0]
      rw [retry_run, hiter]
      apply ih (i + 1) (w + WAIT_UNIT)
      simp only [WAIT_UNIT, RETRY_INTERVAL] at hw ⊢
      omega

/-- C3 (amended): the retry loop of `GC_stop_world` is bounded in the
executions where the missing threads are gone — if acknowledgments stop at
`a` and every rebroadcast reaches zero of the unacknowledged threads
(`ESRCH`), the loop reconciles `n_live_threads` down to the acknowledged
count and breaks within 36 iterations (one `RETRY_INTERVAL` plus two
polls).  It is not bounded in every execution in which acknowledgments
stop arriving: see the counterexample, where a live silent thread keeps
the loop rebroadcasting forever. -/
theorem C3_retry_loop_bounded_when_threads_lost (a n : Int) (h : a < n) :
    retry_run (env_threads_lost a) 36 0 n 0 = some a :=
  retry_lost_reconciles a n (by omega) (by omega) 34 0 0 (by decide)

/-- Witness for C3 (amended) at `a = 0`, `n = 1`. -/
theorem C3_retry_loop_bounded_when_threads_lost_witness :
    (0 : Int) < 1 ∧ retry_run (env_threads_lost 0) 36 0 1 0 = some 0 :=
  ⟨by decide, C3_retry_loop_bounded_when_threads_lost 0 1 (by decide)⟩

/-- C10: `GC_stop_init` evaluates `GC_RETRY_SIGNALS` before
`GC_NO_RETRY_SIGNALS`, so with both environment variables set the
loss-tolerant retry mode ends up disabled; with neither set the platform
default (`TRUE` only under `GC_OSF1_THREADS`) is kept. -/
theorem C10_retry_env_order (dflt : Bool) :
    GC_stop_init_retry dflt true true = false ∧
    GC_stop_init_retry dflt false false = dflt ∧
    GC_stop_init_retry (GC_retry_signals_default true) false false = true ∧
    GC_stop_init_retry (GC_retry_signals_default false) false false
      = false := by
  cases dflt <;> exact ⟨rfl, rfl, rfl, rfl⟩
